import Mathlib

/-!
Verification of the aos_core_lib_cpp concurrency / launcher core.

This file gives a shallow embedding of the parts of the repository that the
checked claims are about:

* `aos::ThreadPool` from `include/aos/common/tools/thread.hpp` (worker pool,
  task queue, wait/shutdown protocol), embedded as a state type with the pool
  API as functions and the worker loop as a small-step transition relation;
* `aos::sm::launcher::Instance` from `src/sm/launcher/instance.cpp`
  (construction, `Start`, `Stop`, `CreateRuntimeSpec`), embedded as pure
  functions over an explicit world (event trace + runtime-directory state)
  with the results of external collaborators (FS, OCI manager, runner)
  supplied as an environment;
* the `Launcher::RunInstances` reconciliation step (declared in
  `include/aos/sm/launcher.hpp`; its implementation file is not among the
  sources, so it is modelled from the spec, as marked on the definitions).

Machine integers: the pending-task counter is a C `int` that the pool keeps
non-negative (it is incremented once per successful enqueue and decremented
once per completed task); it is embedded as `Nat`, and the invariant
`PoolInv` shows the decrement never truncates on reachable states.
-/

namespace Aos

/-- Error codes of `aos::Error`.  `error.hpp` is not among the sources; the
constructors follow the error taxonomy named by the spec (`CapacityExceeded`,
`NotFound`, `InvalidArgument`, `WrongState`) plus `eNone` for success and
`eRuntime` for other wrapped runtime/IO failures. -/
inductive ErrorEnum where
  | eNone
  | eCapacityExceeded
  | eNotFound
  | eInvalidArgument
  | eWrongState
  | eRuntime
  deriving DecidableEq, Repr

/-- `AOS_ERROR_WRAP` attaches the source file/line to an error and keeps its
code; only the code is observable to the claims, so wrapping is the
identity on the embedded error. -/
def AosErrorWrap (e : ErrorEnum) : ErrorEnum := e

/-! ## ThreadPool (include/aos/common/tools/thread.hpp, lines 396-544)

A task is identified by a `Nat`.  The pool state collects the fields of
`ThreadPool` (`mBuffer`, `mPendingTaskCount`, `mShutdown`) together with the
joint state of the `cNumThreads` interchangeable worker threads (how many are
blocked in the wait loop, which tasks are currently being executed, how many
worker loops have returned) and two ghost histories used to state the claims:
the tasks successfully enqueued and the tasks whose execution has completed.

The task buffer is a `LinearRingBuffer` (`ringbuffer.hpp` is not among the
sources).  Modelled from the spec: it is a fixed-capacity FIFO whose push
fails with `CapacityExceeded` when the entry does not fit and whose pop
removes the oldest entry; tasks are modelled as uniform-size, so the capacity
counts tasks. -/

structure PoolState where
  /-- `mBuffer`: FIFO of enqueued, not yet dequeued tasks. -/
  queue : List Nat
  /-- `mPendingTaskCount`: tasks submitted and not yet completed. -/
  pending : Nat
  /-- `mShutdown`. -/
  shutdown : Bool
  /-- Worker threads currently blocked in `mTaskCondVar.Wait` (line 460). -/
  idleWorkers : Nat
  /-- Tasks currently being executed by some worker (line 472), as a multiset. -/
  executing : List Nat
  /-- Worker threads whose loop has returned (line 464). -/
  exited : Nat
  /-- Ghost: tasks successfully enqueued by `AddTask`, in order. -/
  submitted : List Nat
  /-- Ghost: tasks whose execution (line 472) has completed, in order. -/
  log : List Nat
  deriving DecidableEq, Repr

/-- `LinearRingBuffer::PushValue`, modelled from the spec: appends when the
task fits, otherwise fails with `CapacityExceeded` leaving the buffer
untouched. -/
def PushValue (cap : Nat) (q : List Nat) (t : Nat) : ErrorEnum × List Nat :=
  if q.length < cap then (ErrorEnum.eNone, q ++ [t]) else (ErrorEnum.eCapacityExceeded, q)

/-- `LinearRingBuffer::Pop`, modelled from the spec: removes the oldest entry,
fails if the buffer is empty. -/
def BufferPop (q : List Nat) : ErrorEnum × List Nat :=
  match q with
  | [] => (ErrorEnum.eRuntime, [])
  | _ :: rest => (ErrorEnum.eNone, rest)

/-- `ThreadPool::AddTask` (thread.hpp lines 419-440): under the lock, push the
task; on push failure return the error (the counter is not touched);
otherwise increment `mPendingTaskCount` and notify one worker. -/
def AddTask (cap : Nat) (t : Nat) (s : PoolState) : ErrorEnum × PoolState :=
  let (err, q) := PushValue cap s.queue t
  if err ≠ ErrorEnum.eNone then (err, s)
  else
    (ErrorEnum.eNone,
      { s with queue := q, pending := s.pending + 1, submitted := s.submitted ++ [t] })

/-- Sequential submission of a batch of tasks, stopping at the first error
(each caller of `AddTask` checks its result). -/
def AddTasks (cap : Nat) (ts : List Nat) (s : PoolState) : ErrorEnum × PoolState :=
  match ts with
  | [] => (ErrorEnum.eNone, s)
  | t :: rest =>
    let (err, s') := AddTask cap t s
    if err = ErrorEnum.eNone then AddTasks cap rest s' else (err, s')

/-- `ThreadPool::ThreadPool` (lines 403-409): `mShutdown = false`,
`mPendingTaskCount = 0`, empty buffer, threads not yet running. -/
def NewPool : PoolState :=
  { queue := [], pending := 0, shutdown := false, idleWorkers := 0, executing := [],
    exited := 0, submitted := [], log := [] }

/-- `ThreadPool::Run` (lines 447-493) on a pool whose worker threads are not
running: sets `mShutdown = false` (line 451) and then spawns the
`numThreads` worker loops, each of which enters the wait at line 460. -/
def RunPool (numThreads : Nat) (s : PoolState) : PoolState :=
  { s with shutdown := false, idleWorkers := numThreads, exited := 0 }

/-- First half of `ThreadPool::Shutdown` (lines 515-523): set `mShutdown`
under the lock and wake all workers. -/
def SetShutdownFlag (s : PoolState) : PoolState := { s with shutdown := true }

/-- The predicate on which `ThreadPool::Wait` (lines 498-508) returns:
`mWaitCondVar` is waited on until `mPendingTaskCount == 0` (line 502). -/
def WaitReturns (s : PoolState) : Prop := s.pending = 0

/-- The condition under which `ThreadPool::Shutdown` (lines 526-531) returns:
every worker thread function has returned, so all joins complete. -/
def ShutdownReturns (s : PoolState) : Prop := s.idleWorkers = 0 ∧ s.executing = []

/-- One internal transition of a worker loop (the lambda in `ThreadPool::Run`,
lines 454-486).  `dequeue`: a waiting worker wakes with the queue non-empty
and `mShutdown` false, pops the head task (line 467) and releases the lock to
execute it.  `finish`: a worker completes the execution of its task
(line 472) and decrements `mPendingTaskCount` (line 479), notifying all
waiters.  `exit`: a waiting worker wakes with `mShutdown` set and returns
(lines 463-465) — even if tasks remain queued. -/
inductive Step : PoolState → PoolState → Prop where
  | dequeue (s : PoolState) (t : Nat) (rest : List Nat)
      (hq : s.queue = t :: rest) (hsd : s.shutdown = false) (hw : 0 < s.idleWorkers) :
      Step s { s with queue := rest, idleWorkers := s.idleWorkers - 1,
                      executing := t :: s.executing }
  | finish (s : PoolState) (t : Nat) (l1 l2 : List Nat)
      (hx : s.executing = l1 ++ t :: l2) :
      Step s { s with executing := l1 ++ l2, idleWorkers := s.idleWorkers + 1,
                      pending := s.pending - 1, log := s.log ++ [t] }
  | exit (s : PoolState)
      (hsd : s.shutdown = true) (hw : 0 < s.idleWorkers) :
      Step s { s with idleWorkers := s.idleWorkers - 1, exited := s.exited + 1 }

/-- Interleavings of worker-loop transitions. -/
def Reach : PoolState → PoolState → Prop := Relation.ReflTransGen Step

/-- Pool invariant: the pending counter equals queued plus in-flight tasks
(so the `int` decrement at line 479 never drives it negative), and every
submitted task is accounted for exactly as queued, in flight, or completed. -/
def PoolInv (s : PoolState) : Prop :=
  s.pending = s.queue.length + s.executing.length ∧
  ∀ t, s.submitted.count t = s.queue.count t + s.executing.count t + s.log.count t

lemma step_preserves_frame {s s' : PoolState} (h : Step s s') :
    s'.submitted = s.submitted ∧ s'.shutdown = s.shutdown ∧ s'.queue.length ≤ s.queue.length := by
  cases h <;> simp_all

lemma step_preserves_inv {s s' : PoolState} (h : Step s s') (hI : PoolInv s) : PoolInv s' := by
  obtain ⟨h1, h2⟩ := hI
  cases h with
  | dequeue t rest hq hsd hw =>
    refine ⟨?_, fun u => ?_⟩
    · dsimp only
      rw [h1, hq]
      simp only [List.length_cons]
      omega
    · have hc := h2 u
      rw [hq] at hc
      dsimp only
      by_cases hu : u = t
      · subst hu
        simp [List.count_cons] at hc ⊢
        omega
      · have hu' : t ≠ u := fun hh => hu hh.symm
        simp [List.count_cons, hu, hu'] at hc ⊢
        omega
  | finish t l1 l2 hx =>
    refine ⟨?_, fun u => ?_⟩
    · dsimp only
      rw [hx] at h1
      simp only [List.length_append, List.length_cons] at h1 ⊢
      omega
    · have hc := h2 u
      rw [hx] at hc
      dsimp only
      by_cases hu : u = t
      · subst hu
        simp [List.count_append, List.count_cons] at hc ⊢
        omega
      · have hu' : t ≠ u := fun hh => hu hh.symm
        simp [List.count_append, List.count_cons, hu, hu'] at hc ⊢
        omega
  | exit hsd hw =>
    exact ⟨h1, h2⟩

lemma reach_preserves_inv {s s' : PoolState} (h : Reach s s') (hI : PoolInv s) :
    PoolInv s' ∧ s'.submitted = s.submitted ∧ s'.shutdown = s.shutdown := by
  induction h with
  | refl => exact ⟨hI, rfl, rfl⟩
  | tail _ hstep ih =>
    obtain ⟨hIb, hsub, hsd⟩ := ih
    obtain ⟨hf1, hf2, _⟩ := step_preserves_frame hstep
    exact ⟨step_preserves_inv hstep hIb, hf1.trans hsub, hf2.trans hsd⟩

/-- Submitting `ts` tasks all succeeds when they fit in the remaining queue
space, and yields exactly the expected queue, counter and history. -/
lemma addTasks_ok (cap : Nat) (ts : List Nat) (s : PoolState)
    (h : s.queue.length + ts.length ≤ cap) :
    AddTasks cap ts s =
      (ErrorEnum.eNone,
        { s with queue := s.queue ++ ts, pending := s.pending + ts.length,
                 submitted := s.submitted ++ ts }) := by
  induction ts generalizing s with
  | nil => simp [AddTasks]
  | cons t rest ih =>
    have hlt : s.queue.length < cap := by simp at h; omega
    have hpush : PushValue cap s.queue t = (ErrorEnum.eNone, s.queue ++ [t]) := by
      simp [PushValue, hlt]
    have hstep : AddTask cap t s =
        (ErrorEnum.eNone,
          { s with queue := s.queue ++ [t], pending := s.pending + 1,
                   submitted := s.submitted ++ [t] }) := by
      simp [AddTask, hpush]
    have hrest := ih { s with queue := s.queue ++ [t], pending := s.pending + 1,
                              submitted := s.submitted ++ [t] }
      (by simp at h ⊢; omega)
    simp only [AddTasks, hstep, if_true, eq_self_iff_true, hrest]
    simp [List.append_assoc, Nat.add_comm, Nat.add_assoc, Nat.add_left_comm]

/-- A single queued task on an otherwise idle running pool is dequeued and
executed by some worker. -/
lemma run_single_task (t p W e : Nat) (sub lg : List Nat) (hw : 0 < W) :
    Reach (PoolState.mk [t] p false W [] e sub lg)
          (PoolState.mk [] (p - 1) false W [] e sub (lg ++ [t])) := by
  have h1 : Step (PoolState.mk [t] p false W [] e sub lg)
      (PoolState.mk [] p false (W - 1) [t] e sub lg) :=
    Step.dequeue _ t [] rfl rfl hw
  have h2 : Step (PoolState.mk [] p false (W - 1) [t] e sub lg)
      (PoolState.mk [] (p - 1) false (W - 1 + 1) [] e sub (lg ++ [t])) :=
    Step.finish _ t [] [] rfl
  have hW : W - 1 + 1 = W := Nat.succ_pred_eq_of_pos hw
  rw [hW] at h2
  exact Relation.ReflTransGen.tail (Relation.ReflTransGen.single h1) h2

/-- **C1**: after the worker pool has been started, for every set of `n`
(`n ≤` queue capacity) distinct tasks submitted via `AddTask`, whenever
`Wait` can return (its condition-variable predicate `mPendingTaskCount == 0`
holds, in any state the worker loops can reach), every one of the `n` tasks
has been executed exactly once, and the pending-task counter is zero. -/
theorem C1_wait_returns_only_after_all_tasks_executed_once
    (cap numThreads : Nat) (ts : List Nat) (hcap : ts.length ≤ cap) (hnd : ts.Nodup)
    (s : PoolState)
    (hreach : Reach (AddTasks cap ts (RunPool numThreads NewPool)).2 s)
    (hwait : WaitReturns s) :
    (∀ t ∈ ts, s.log.count t = 1) ∧ s.pending = 0 := by
  have hinit : (AddTasks cap ts (RunPool numThreads NewPool)).2 =
      PoolState.mk ts ts.length false numThreads [] 0 ts [] := by
    rw [addTasks_ok cap ts _ (by simp [RunPool, NewPool]; omega)]
    simp [RunPool, NewPool]
  rw [hinit] at hreach
  have hI0 : PoolInv (PoolState.mk ts ts.length false numThreads [] 0 ts []) := by
    constructor
    · simp
    · intro t; simp
  obtain ⟨⟨hp, hcnt⟩, hsub, _⟩ := reach_preserves_inv hreach hI0
  have hpend : s.pending = 0 := hwait
  have hq0 : s.queue = [] := List.length_eq_zero.mp (by omega)
  have hx0 : s.executing = [] := List.length_eq_zero.mp (by omega)
  refine ⟨fun t ht => ?_, hpend⟩
  have hc := hcnt t
  rw [hsub, hq0, hx0] at hc
  simp only [List.count_nil, Nat.zero_add] at hc
  rw [← hc]
  exact List.count_eq_one_of_mem hnd ht

/-- Witness for C1: a pool of 2 workers with queue capacity 2, tasks `[0, 1]`
submitted; the interleaving that dequeues and completes both tasks reaches a
state where `Wait` returns, both tasks are in the completion log once, and
the counter is zero. -/
theorem C1_witness :
    (∀ t ∈ [0, 1], (PoolState.mk [] 0 false 2 [] 0 [0, 1] [0, 1]).log.count t = 1) ∧
      (PoolState.mk [] 0 false 2 [] 0 [0, 1] [0, 1]).pending = 0 := by
  have e0 : (AddTasks 2 [0, 1] (RunPool 2 NewPool)).2 =
      PoolState.mk [0, 1] 2 false 2 [] 0 [0, 1] [] := by decide
  have h1 : Step (PoolState.mk [0, 1] 2 false 2 [] 0 [0, 1] [])
      (PoolState.mk [1] 2 false 1 [0] 0 [0, 1] []) :=
    Step.dequeue _ 0 [1] rfl rfl (by decide)
  have h2 : Step (PoolState.mk [1] 2 false 1 [0] 0 [0, 1] [])
      (PoolState.mk [1] 1 false 2 [] 0 [0, 1] [0]) :=
    Step.finish _ 0 [] [] rfl
  have h3 : Step (PoolState.mk [1] 1 false 2 [] 0 [0, 1] [0])
      (PoolState.mk [] 1 false 1 [1] 0 [0, 1] [0]) :=
    Step.dequeue _ 1 [] rfl rfl (by decide)
  have h4 : Step (PoolState.mk [] 1 false 1 [1] 0 [0, 1] [0])
      (PoolState.mk [] 0 false 2 [] 0 [0, 1] [0, 1]) :=
    Step.finish _ 1 [] [] rfl
  have hreach : Reach (AddTasks 2 [0, 1] (RunPool 2 NewPool)).2
      (PoolState.mk [] 0 false 2 [] 0 [0, 1] [0, 1]) := by
    rw [e0]
    exact Relation.ReflTransGen.tail
      (Relation.ReflTransGen.tail
        (Relation.ReflTransGen.tail (Relation.ReflTransGen.single h1) h2) h3) h4
  exact C1_wait_returns_only_after_all_tasks_executed_once 2 2 [0, 1]
    (by decide) (by decide) _ hreach rfl

/-- **C2**: once the `Shutdown` flag is set while one task is executing and
`qs` are still queued, along every interleaving of the worker loops the queue
is never consumed (each woken worker sees `mShutdown` and returns before
popping), the completion log grows by at most the in-flight task, and in any
state in which `Shutdown`'s joins can complete (all workers exited) the
in-flight task has run to completion and none of the queued tasks has
executed. -/
theorem C2_shutdown_discards_queued_completes_inflight
    (s0 s : PoolState) (t0 : Nat) (qs : List Nat)
    (hsd : s0.shutdown = true) (hx : s0.executing = [t0]) (hq : s0.queue = qs)
    (hreach : Reach s0 s) :
    s.queue = qs ∧ (s.log = s0.log ∨ s.log = s0.log ++ [t0]) ∧
      (ShutdownReturns s → s.log = s0.log ++ [t0]) := by
  suffices h : s.shutdown = true ∧ s.queue = qs ∧
      ((s.executing = [t0] ∧ s.log = s0.log) ∨ (s.executing = [] ∧ s.log = s0.log ++ [t0])) by
    obtain ⟨_, hq', hd⟩ := h
    refine ⟨hq', ?_, ?_⟩
    · rcases hd with ⟨_, hl⟩ | ⟨_, hl⟩
      · exact Or.inl hl
      · exact Or.inr hl
    · intro hsr
      rcases hd with ⟨hex, _⟩ | ⟨_, hl⟩
      · obtain ⟨_, hsr2⟩ := hsr
        rw [hex] at hsr2
        exact absurd hsr2 (by simp)
      · exact hl
  induction hreach with
  | refl => exact ⟨hsd, hq, Or.inl ⟨hx, rfl⟩⟩
  | tail hsteps hstep ih =>
    obtain ⟨ihsd, ihq, ihd⟩ := ih
    cases hstep with
    | dequeue t rest hq2 hsd2 hw =>
      rw [ihsd] at hsd2
      exact absurd hsd2 (by simp)
    | finish t l1 l2 hx2 =>
      rcases ihd with ⟨hex, hlog⟩ | ⟨hex, hlog⟩
      · rw [hex] at hx2
        have hl : l1 = [] ∧ t0 = t ∧ l2 = [] := by
          cases l1 with
          | nil =>
            simp only [List.nil_append, List.cons.injEq] at hx2
            exact ⟨rfl, hx2.1, hx2.2.symm⟩
          | cons a as => simp at hx2
        obtain ⟨he1, he2, he3⟩ := hl
        subst he1; subst he3
        refine ⟨ihsd, ihq, Or.inr ⟨by simp, ?_⟩⟩
        dsimp only
        rw [hlog, he2]
      · rw [hex] at hx2
        exact absurd hx2 (by simp)
    | exit hsd2 hw => exact ⟨ihsd, ihq, ihd⟩

/-- Witness for C2: shutdown flag set with task 5 in flight, tasks `[7, 8]`
queued, one idle worker; the in-flight worker completes task 5 and both
workers exit.  At the joined state the queue still holds `[7, 8]`
unexecuted and the log gained exactly task 5. -/
theorem C2_witness :
    (PoolState.mk [7, 8] 3 true 1 [] 2 [5, 7, 8] [5]).queue = [7, 8] ∧
      ((PoolState.mk [7, 8] 3 true 1 [] 2 [5, 7, 8] [5]).log = [] ∨
        (PoolState.mk [7, 8] 3 true 1 [] 2 [5, 7, 8] [5]).log = [] ++ [5]) ∧
      (ShutdownReturns (PoolState.mk [7, 8] 3 true 1 [] 2 [5, 7, 8] [5]) →
        (PoolState.mk [7, 8] 3 true 1 [] 2 [5, 7, 8] [5]).log = [] ++ [5]) := by
  have h1 : Step (PoolState.mk [7, 8] 4 true 2 [5] 0 [5, 7, 8] [])
      (PoolState.mk [7, 8] 3 true 3 [] 0 [5, 7, 8] [5]) :=
    Step.finish _ 5 [] [] rfl
  have h2 : Step (PoolState.mk [7, 8] 3 true 3 [] 0 [5, 7, 8] [5])
      (PoolState.mk [7, 8] 3 true 2 [] 1 [5, 7, 8] [5]) :=
    Step.exit _ rfl (by decide)
  have h3 : Step (PoolState.mk [7, 8] 3 true 2 [] 1 [5, 7, 8] [5])
      (PoolState.mk [7, 8] 3 true 1 [] 2 [5, 7, 8] [5]) :=
    Step.exit _ rfl (by decide)
  exact C2_shutdown_discards_queued_completes_inflight
    (PoolState.mk [7, 8] 4 true 2 [5] 0 [5, 7, 8] []) _ 5 [7, 8] rfl rfl rfl
    (Relation.ReflTransGen.tail
      (Relation.ReflTransGen.tail (Relation.ReflTransGen.single h1) h2) h3)

/-- **C6**: `AddTask` on a non-full queue enqueues the task and increments
the pending counter; on a full queue it returns `CapacityExceeded` with the
whole pool state (queue contents and pending counter included) unchanged,
and after popping the oldest entry a push succeeds again. -/
theorem C6_addtask_capacity_exceeded_preserves_state
    (cap t u : Nat) (s : PoolState) (hfull : s.queue.length = cap) (hcap : 0 < cap) :
    AddTask cap t s = (ErrorEnum.eCapacityExceeded, s) ∧
    (BufferPop s.queue).1 = ErrorEnum.eNone ∧
    (PushValue cap (BufferPop s.queue).2 u).1 = ErrorEnum.eNone ∧
    (∀ s' : PoolState, s'.queue.length < cap →
      AddTask cap t s' =
        (ErrorEnum.eNone,
          { s' with queue := s'.queue ++ [t], pending := s'.pending + 1,
                    submitted := s'.submitted ++ [t] })) := by
  have hnlt : ¬ s.queue.length < cap := by omega
  refine ⟨by simp [AddTask, PushValue, hnlt], ?_, ?_, ?_⟩
  · match hq : s.queue with
    | [] =>
      rw [hq] at hfull
      simp at hfull
      omega
    | a :: rest => simp [BufferPop]
  · match hq : s.queue with
    | [] =>
      rw [hq] at hfull
      simp at hfull
      omega
    | a :: rest =>
      have hlt : rest.length < cap := by
        rw [hq] at hfull
        simp at hfull
        omega
      simp [BufferPop, PushValue, hlt]
  · intro s' hlt
    simp [AddTask, PushValue, hlt]

/-- Witness for C6: queue `[4]` full at capacity 1; adding task 9 fails with
`CapacityExceeded` leaving the state intact, and pop-then-push succeeds. -/
theorem C6_witness :
    AddTask 1 9 (PoolState.mk [4] 1 false 1 [] 0 [4] []) =
      (ErrorEnum.eCapacityExceeded, PoolState.mk [4] 1 false 1 [] 0 [4] []) ∧
    (BufferPop (PoolState.mk [4] 1 false 1 [] 0 [4] []).queue).1 = ErrorEnum.eNone ∧
    (PushValue 1 (BufferPop (PoolState.mk [4] 1 false 1 [] 0 [4] []).queue).2 3).1 =
      ErrorEnum.eNone ∧
    (∀ s' : PoolState, s'.queue.length < 1 →
      AddTask 1 9 s' =
        (ErrorEnum.eNone,
          { s' with queue := s'.queue ++ [9], pending := s'.pending + 1,
                    submitted := s'.submitted ++ [9] })) :=
  C6_addtask_capacity_exceeded_preserves_state 1 9 3
    (PoolState.mk [4] 1 false 1 [] 0 [4] []) rfl (by decide)

/-- **C10**: `ThreadPool::Run` clears `mShutdown` (line 451) before spawning
the worker loops, so a pool whose shutdown has completed (flag set, all
workers exited, nothing in flight) can be started again: after `Run`, a new
task submitted through `AddTask` is accepted and an interleaving of the
restarted worker loops executes it. -/
theorem C10_run_resets_shutdown_and_pool_restarts
    (cap numThreads t : Nat) (s : PoolState)
    (hsd : s.shutdown = true) (hq : s.queue = []) (hex : s.executing = [])
    (hw : 0 < numThreads) (hcap : 0 < cap) :
    (RunPool numThreads s).shutdown = false ∧
    (AddTask cap t (RunPool numThreads s)).1 = ErrorEnum.eNone ∧
    ∃ s', Reach (AddTask cap t (RunPool numThreads s)).2 s' ∧ s'.log = s.log ++ [t] := by
  have hadd : AddTask cap t (RunPool numThreads s) =
      (ErrorEnum.eNone,
        PoolState.mk [t] (s.pending + 1) false numThreads [] 0 (s.submitted ++ [t]) s.log) := by
    simp [AddTask, PushValue, RunPool, hq, hex, hcap]
  refine ⟨rfl, by rw [hadd], ?_⟩
  refine ⟨PoolState.mk [] (s.pending + 1 - 1) false numThreads [] 0 (s.submitted ++ [t])
    (s.log ++ [t]), ?_, by simp⟩
  rw [hadd]
  exact run_single_task t (s.pending + 1) numThreads 0 (s.submitted ++ [t]) s.log hw

/-- Witness for C10: a shut-down pool that had completed task 9 is restarted
with one worker and capacity 1; task 3 is accepted and executed. -/
theorem C10_witness :
    (RunPool 1 (PoolState.mk [] 0 true 0 [] 1 [9] [9])).shutdown = false ∧
    (AddTask 1 3 (RunPool 1 (PoolState.mk [] 0 true 0 [] 1 [9] [9]))).1 = ErrorEnum.eNone ∧
    ∃ s', Reach (AddTask 1 3 (RunPool 1 (PoolState.mk [] 0 true 0 [] 1 [9] [9]))).2 s' ∧
      s'.log = (PoolState.mk [] 0 true 0 [] 1 [9] [9]).log ++ [3] :=
  C10_run_resets_shutdown_and_pool_restarts 1 1 3 (PoolState.mk [] 0 true 0 [] 1 [9] [9])
    rfl rfl rfl (by decide) (by decide)

/-! ## Instance lifecycle (src/sm/launcher/instance.cpp)

`Instance` methods call out to `FS` (clear/remove directory), the OCI manager
(`SaveRuntimeSpec`) and the runner (`StartInstance`/`StopInstance`).  These
collaborators are external to the core: each call's outcome is supplied by an
`Env`, and the externally visible effect of a run is an explicit `World`
(ordered trace of collaborator invocations plus the contents of the
instance's runtime directory). -/

/-- Run state of an instance as reported by the runner.  Modelled from the
spec: the run-state type lives in headers (`instance.hpp`, `types.hpp`) that
are not among the sources; the spec's lifecycle distinguishes an active, a
failed, and an initial/unknown state. -/
inductive RunState where
  | unknown
  | active
  | failed
  deriving DecidableEq, Repr

/-- `runner::RunStatus`: run state plus error returned by
`RunnerItf::StartInstance`. -/
structure RunStatus where
  state : RunState
  error : ErrorEnum
  deriving DecidableEq, Repr

/-- `oci::ImageConfig` — the entry command list `mConfig.mCmd`. -/
structure ImageConfig where
  cmd : List String
  deriving DecidableEq, Repr

/-- `oci::ImageSpec` — only the config is used by `CreateRuntimeSpec`. -/
structure ImageSpec where
  config : ImageConfig
  deriving DecidableEq, Repr

/-- The resolved service record as seen from `Instance`: `ImageSpec()` and
`ServiceFSPath()` are `RetWithError` accessors (error code paired with the
value), and `Data().mVersionInfo.mAosVersion` is the cached version. -/
structure Service where
  aosVersion : Nat
  imageSpec : ErrorEnum × ImageSpec
  serviceFSPath : ErrorEnum × String
  deriving DecidableEq, Repr

/-- `InstanceInfo` as used by the constructor (the instance ident). -/
structure InstanceInfo where
  instanceIdent : String
  deriving DecidableEq, Repr

/-- The fields of `aos::sm::launcher::Instance` written by `instance.cpp`:
generated ID, copied info, assigned service (non-owning, may be absent),
cached Aos version, current run state and last run error. -/
structure InstanceSt where
  instanceID : String
  info : InstanceInfo
  service : Option Service
  aosVersion : Nat
  runState : RunState
  runError : ErrorEnum
  deriving DecidableEq, Repr

/-- Outcomes of the external collaborators for one `Start`/`Stop` attempt. -/
structure Env where
  clearDirErr : ErrorEnum
  saveSpecErr : ErrorEnum
  runnerStart : RunStatus
  runnerStopErr : ErrorEnum
  removeDirErr : ErrorEnum
  deriving DecidableEq, Repr

/-- One external-collaborator invocation, in program order. -/
inductive Event where
  | clearDir (path : String)
  | saveSpec (path : String) (kernelPath : String)
  | runnerStart (id : String) (path : String)
  | runnerStop (id : String)
  | removeDir (path : String)
  deriving DecidableEq, Repr

/-- Externally visible state: the trace of collaborator invocations and the
contents of the instance's runtime directory (`none` = directory absent). -/
structure World where
  events : List Event
  instanceDir : Option (List String)
  deriving DecidableEq, Repr

/-- `FS::JoinPath`.  `fs.hpp` is not among the sources; modelled from the
spec ("derived by joining"): path concatenation with a separator. -/
def JoinPath (a b : String) : String := a ++ "/" ++ b

/-- `cRuntimeDir` — base directory of per-instance runtime data.  The
constant's value is configuration (`aos/sm/config.hpp`, not among the
sources) and is irrelevant to the claims. -/
def cRuntimeDir : String := "/aos/runtime"

/-- `cRuntimeSpecFile` — file name of the persisted runtime descriptor.  The
value is configuration and is irrelevant to the claims. -/
def cRuntimeSpecFile : String := "config.json"

/-- `FS::ClearDir(path, true)`: removes the directory's contents and
recreates it, leaving an existing empty directory on success; on failure the
filesystem state is unspecified and kept as-is here.  The call is recorded in
the trace. -/
def FSClearDir (e : ErrorEnum) (path : String) (w : World) : ErrorEnum × World :=
  (e, { events := w.events ++ [Event.clearDir path],
        instanceDir := if e = ErrorEnum.eNone then some [] else w.instanceDir })

/-- `FS::RemoveDir(path, true)`: removes the directory recursively. -/
def FSRemoveDir (e : ErrorEnum) (path : String) (w : World) : ErrorEnum × World :=
  (e, { events := w.events ++ [Event.removeDir path],
        instanceDir := if e = ErrorEnum.eNone then none else w.instanceDir })

/-- `OCISpecItf::SaveRuntimeSpec(path, spec)`: persists the runtime
descriptor (whose VM kernel path is recorded in the trace) into the
directory. -/
def OCISaveRuntimeSpec (e : ErrorEnum) (path kernelPath : String) (w : World) :
    ErrorEnum × World :=
  (e, { events := w.events ++ [Event.saveSpec path kernelPath],
        instanceDir := if e = ErrorEnum.eNone
          then some ((w.instanceDir.getD []) ++ [cRuntimeSpecFile])
          else w.instanceDir })

/-- `Instance::CreateRuntimeSpec` (instance.cpp lines 103-146): clear the
instance directory; fail with wrapped `NotFound` if no service is assigned;
query the service's image spec and filesystem path, propagating their
errors; fail with wrapped `InvalidArgument` if the image config declares no
entry command; otherwise save the runtime descriptor whose kernel path joins
the service filesystem root with the first command entry. -/
def CreateRuntimeSpec (env : Env) (inst : InstanceSt) (path : String) (w : World) :
    ErrorEnum × World :=
  let (errC, w1) := FSClearDir env.clearDirErr path w
  if errC ≠ ErrorEnum.eNone then (AosErrorWrap errC, w1)
  else
    match inst.service with
    | Option.none => (AosErrorWrap ErrorEnum.eNotFound, w1)
    | Option.some svc =>
      if svc.imageSpec.1 ≠ ErrorEnum.eNone then (svc.imageSpec.1, w1)
      else if svc.serviceFSPath.1 ≠ ErrorEnum.eNone then (svc.serviceFSPath.1, w1)
      else
        match svc.imageSpec.2.config.cmd with
        | [] => (AosErrorWrap ErrorEnum.eInvalidArgument, w1)
        | cmd0 :: _ =>
          OCISaveRuntimeSpec env.saveSpecErr (JoinPath path cRuntimeSpecFile)
            (JoinPath svc.serviceFSPath.2 cmd0) w1

/-- `Instance::Start` (instance.cpp lines 54-77): build the runtime spec in
the instance directory; on failure record the error in `mRunError` (the run
state is not touched) and return it; on success invoke the runner and record
both the returned run state and error, returning the runner's error. -/
def Start (env : Env) (inst : InstanceSt) (w : World) : ErrorEnum × InstanceSt × World :=
  let instanceDir := JoinPath cRuntimeDir inst.instanceID
  let (err, w1) := CreateRuntimeSpec env inst instanceDir w
  if err ≠ ErrorEnum.eNone then (err, { inst with runError := err }, w1)
  else
    let w2 := { w1 with events := w1.events ++ [Event.runnerStart inst.instanceID instanceDir] }
    (env.runnerStart.error,
      { inst with runState := env.runnerStart.state, runError := env.runnerStart.error }, w2)

/-- `Instance::Stop` (instance.cpp lines 79-97): ask the runner to stop the
instance, then remove the runtime directory; both steps always run, and the
first error encountered (the removal error wrapped) is returned. -/
def Stop (env : Env) (inst : InstanceSt) (w : World) : ErrorEnum × World :=
  let instanceDir := JoinPath cRuntimeDir inst.instanceID
  let stopErr : ErrorEnum := ErrorEnum.eNone
  let errS := env.runnerStopErr
  let w1 := { w with events := w.events ++ [Event.runnerStop inst.instanceID] }
  let stopErr := if errS ≠ ErrorEnum.eNone ∧ stopErr = ErrorEnum.eNone then errS else stopErr
  let (errR, w2) := FSRemoveDir env.removeDirErr instanceDir w1
  let stopErr :=
    if errR ≠ ErrorEnum.eNone ∧ stopErr = ErrorEnum.eNone then AosErrorWrap errR else stopErr
  (stopErr, w2)

/-- `String::Convert(size_t)` renders the counter in decimal (`string.hpp` is
not among the sources; the spec fixes the ID format `instance-<sequence>`). -/
def Convert (n : Nat) : String :=
  if n = 0 then "0" else String.mk (((Nat.digits 10 n).map Nat.digitChar).reverse)

/-- `Instance::Instance` (instance.cpp lines 29-40): the new instance's ID is
`"instance-"` with the current value of the static counter `sInstanceID`
appended, and the counter is post-incremented; the info is copied, no
service is assigned yet. -/
def InstanceNew (info : InstanceInfo) (counter : Nat) : InstanceSt × Nat :=
  ({ instanceID := "instance-" ++ Convert counter, info := info, service := Option.none,
     aosVersion := 0, runState := RunState.unknown, runError := ErrorEnum.eNone },
   counter + 1)

/-- Sequential construction of one instance per info entry, threading the
static counter `sInstanceID`. -/
def InstanceNewAll (infos : List InstanceInfo) (counter : Nat) : List InstanceSt × Nat :=
  match infos with
  | [] => ([], counter)
  | i :: rest =>
    let (inst, c1) := InstanceNew i counter
    let (l, c2) := InstanceNewAll rest c1
    (inst :: l, c2)

/-- Mutexes acquired by the body of `Instance::Instance` (instance.cpp lines
29-40): the body appends `Convert(sInstanceID++)` to the ID string and logs;
it contains no `LockGuard`/`UniqueLock`, so no mutex is taken. -/
def instanceCtorAcquiredLocks : List String := []

/-- Mutexes acquired by `Instance::CreateRuntimeSpec` (instance.cpp line
105): `LockGuard lock(sMutex)` over the whole body. -/
def createRuntimeSpecAcquiredLocks : List String := ["sMutex"]

lemma digitChar_inj_lt10 :
    ∀ d1, d1 < 10 → ∀ d2, d2 < 10 → Nat.digitChar d1 = Nat.digitChar d2 → d1 = d2 := by
  decide

lemma map_digitChar_inj :
    ∀ l1 l2 : List Nat, (∀ d ∈ l1, d < 10) → (∀ d ∈ l2, d < 10) →
      l1.map Nat.digitChar = l2.map Nat.digitChar → l1 = l2 := by
  intro l1
  induction l1 with
  | nil =>
    intro l2 _ _ h
    cases l2 with
    | nil => rfl
    | cons b bs => simp at h
  | cons a as ih =>
    intro l2 h1 h2 h
    cases l2 with
    | nil => simp at h
    | cons b bs =>
      simp only [List.map_cons, List.cons.injEq] at h
      have ha := digitChar_inj_lt10 a (h1 a (by simp)) b (h2 b (by simp)) h.1
      have hrest := ih bs (fun d hd => h1 d (by simp [hd])) (fun d hd => h2 d (by simp [hd])) h.2
      rw [ha, hrest]

lemma digits_eq_of_convert_eq {n m : Nat} (hn : n ≠ 0) (hm : m ≠ 0)
    (h : String.mk (((Nat.digits 10 n).map Nat.digitChar).reverse) =
         String.mk (((Nat.digits 10 m).map Nat.digitChar).reverse)) : n = m := by
  have hdata : ((Nat.digits 10 n).map Nat.digitChar).reverse =
      ((Nat.digits 10 m).map Nat.digitChar).reverse := by injection h
  have hmap := List.reverse_injective hdata
  have hdig := map_digitChar_inj _ _
    (fun d hd => Nat.digits_lt_base (by norm_num) hd)
    (fun d hd => Nat.digits_lt_base (by norm_num) hd) hmap
  exact Nat.digits_inj_iff.mp hdig

lemma Convert_injective : Function.Injective Convert := by
  intro n m h
  unfold Convert at h
  by_cases hn : n = 0 <;> by_cases hm : m = 0
  · rw [hn, hm]
  · rw [if_pos hn, if_neg hm] at h
    have hdata : ('0' :: []) = ((Nat.digits 10 m).map Nat.digitChar).reverse := by
      have := congrArg String.data h
      simpa using this
    have hmap : (Nat.digits 10 m).map Nat.digitChar = [(0 : Nat)].map Nat.digitChar := by
      have := congrArg List.reverse hdata
      simpa using this.symm
    have hdig := map_digitChar_inj _ _
      (fun d hd => Nat.digits_lt_base (by norm_num) hd) (by simp) hmap
    have hm0 := Nat.ofDigits_digits 10 m
    rw [hdig] at hm0
    simp [Nat.ofDigits] at hm0
    exact absurd hm0.symm hm
  · rw [if_neg hn, if_pos hm] at h
    have hdata : ((Nat.digits 10 n).map Nat.digitChar).reverse = ('0' :: []) := by
      have := congrArg String.data h
      simpa using this
    have hmap : (Nat.digits 10 n).map Nat.digitChar = [(0 : Nat)].map Nat.digitChar := by
      have := congrArg List.reverse hdata
      simpa using this
    have hdig := map_digitChar_inj _ _
      (fun d hd => Nat.digits_lt_base (by norm_num) hd) (by simp) hmap
    have hn0 := Nat.ofDigits_digits 10 n
    rw [hdig] at hn0
    simp [Nat.ofDigits] at hn0
    exact absurd hn0.symm hn
  · rw [if_neg hn, if_neg hm] at h
    exact digits_eq_of_convert_eq hn hm h

lemma instanceID_injective :
    Function.Injective (fun k : Nat => "instance-" ++ Convert k) := by
  intro a b h
  simp only at h
  have hdata := congrArg String.data h
  simp only [String.data_append] at hdata
  have := List.append_cancel_left hdata
  exact Convert_injective (String.ext this)

lemma instanceNewAll_ids (infos : List InstanceInfo) (c : Nat) :
    (InstanceNewAll infos c).1.map InstanceSt.instanceID =
      (List.range infos.length).map (fun k => "instance-" ++ Convert (c + k)) ∧
    (InstanceNewAll infos c).2 = c + infos.length := by
  induction infos generalizing c with
  | nil => simp [InstanceNewAll]
  | cons i rest ih =>
    obtain ⟨ih1, ih2⟩ := ih (c + 1)
    refine ⟨?_, by simp [InstanceNewAll, InstanceNew, ih2]; omega⟩
    simp only [InstanceNewAll, InstanceNew, List.map_cons, List.length_cons, List.range_succ_eq_map,
      List.map_map]
    rw [ih1]
    congr 1
    apply List.map_congr_left
    intro a ha
    simp only [Function.comp_apply]
    congr 2
    omega

/-- **C4 counterexample**: the claim asserts the sequential ID is acquired
*under a shared lock* at construction time, but the constructor body of
`Instance::Instance` acquires no mutex at all — the shared `sMutex` is taken
only by `CreateRuntimeSpec`. -/
theorem C4_counterexample_ctor_takes_no_lock :
    instanceCtorAcquiredLocks = [] ∧ "sMutex" ∈ createRuntimeSpecAcquiredLocks := by
  constructor
  · rfl
  · simp [createRuntimeSpecAcquiredLocks]

/-- **C4 (amended)**: each Instance takes its ID from the process-wide
static counter `sInstanceID`, post-incremented at construction (without
taking any lock); constructing any sequence of instances yields IDs of the
form `instance-<sequence>` with strictly increasing sequence numbers
`c, c+1, …`, and the generated IDs are pairwise distinct. -/
theorem C4_amended_sequential_ids_unique_and_increasing (infos : List InstanceInfo) (c : Nat) :
    (InstanceNewAll infos c).1.map InstanceSt.instanceID =
      (List.range infos.length).map (fun k => "instance-" ++ Convert (c + k)) ∧
    ((InstanceNewAll infos c).1.map InstanceSt.instanceID).Nodup ∧
    (InstanceNewAll infos c).2 = c + infos.length := by
  obtain ⟨h1, h2⟩ := instanceNewAll_ids infos c
  refine ⟨h1, ?_, h2⟩
  rw [h1]
  apply List.Nodup.map
  · intro a b hab
    have := instanceID_injective hab
    omega
  · exact List.nodup_range infos.length

/-! ### Concrete fixtures for the instance-lifecycle claims -/

/-- All collaborators succeed; the runner reports the instance active. -/
def envOkActive : Env :=
  { clearDirErr := ErrorEnum.eNone, saveSpecErr := ErrorEnum.eNone,
    runnerStart := { state := RunState.active, error := ErrorEnum.eNone },
    runnerStopErr := ErrorEnum.eNone, removeDirErr := ErrorEnum.eNone }

/-- A pre-state whose runtime directory holds a stale file. -/
def wStale : World := { events := [], instanceDir := Option.some ["stale-file"] }

/-- An instance with no assigned service whose previous run left it active. -/
def instNoServiceActive : InstanceSt :=
  { instanceID := "instance-0", info := { instanceIdent := "subj:1:0" },
    service := Option.none, aosVersion := 1, runState := RunState.active,
    runError := ErrorEnum.eNone }

/-- The same instance but with the initial (unknown) run state. -/
def instNoServiceUnknown : InstanceSt :=
  { instanceID := "instance-0", info := { instanceIdent := "subj:1:0" },
    service := Option.none, aosVersion := 1, runState := RunState.unknown,
    runError := ErrorEnum.eNone }

/-- A resolved service whose image descriptor declares no entry command. -/
def svcEmptyCmd : Service :=
  { aosVersion := 1, imageSpec := (ErrorEnum.eNone, { config := { cmd := [] } }),
    serviceFSPath := (ErrorEnum.eNone, "/services/s1") }

/-- An instance assigned `svcEmptyCmd`. -/
def instEmptyCmd : InstanceSt :=
  { instanceID := "instance-1", info := { instanceIdent := "subj:1:1" },
    service := Option.some svcEmptyCmd, aosVersion := 1, runState := RunState.unknown,
    runError := ErrorEnum.eNone }

/-- **C3 counterexample**: the claim says both the stored run state and run
error reflect the attempt just made on *every* path out of `Start`.  On the
`CreateRuntimeSpec`-failure path only `mRunError` is written: two instances
that differ only in their previous run state make the same failing attempt
(no service assigned, every collaborator succeeding) yet end with different
stored run states — the previous value is retained, so the stored run state
does not reflect the attempt. -/
theorem C3_counterexample_runstate_not_recorded_on_failure :
    { instNoServiceActive with runState := RunState.unknown } = instNoServiceUnknown ∧
    (Start envOkActive instNoServiceActive wStale).1 = ErrorEnum.eNotFound ∧
    (Start envOkActive instNoServiceUnknown wStale).1 = ErrorEnum.eNotFound ∧
    (Start envOkActive instNoServiceActive wStale).2.1.runState = RunState.active ∧
    (Start envOkActive instNoServiceUnknown wStale).2.1.runState = RunState.unknown ∧
    (Start envOkActive instNoServiceActive wStale).2.1.runState ≠
      (Start envOkActive instNoServiceUnknown wStale).2.1.runState := by
  refine ⟨rfl, ?_, ?_, ?_, ?_, ?_⟩ <;> decide

/-- **C3 (amended)**: `Instance::Start` records the run error on every path
out of `Start`; the run state is recorded only when the runtime spec was
created successfully (and the runner invoked) — on a `CreateRuntimeSpec`
failure the previously stored run state is retained unchanged. -/
theorem C3_amended_start_records_error_always_state_on_runner_path
    (env : Env) (inst : InstanceSt) (w : World) :
    ((CreateRuntimeSpec env inst (JoinPath cRuntimeDir inst.instanceID) w).1 ≠
        ErrorEnum.eNone →
      (Start env inst w).2.1.runError =
          (CreateRuntimeSpec env inst (JoinPath cRuntimeDir inst.instanceID) w).1 ∧
        (Start env inst w).1 =
          (CreateRuntimeSpec env inst (JoinPath cRuntimeDir inst.instanceID) w).1 ∧
        (Start env inst w).2.1.runState = inst.runState) ∧
    ((CreateRuntimeSpec env inst (JoinPath cRuntimeDir inst.instanceID) w).1 =
        ErrorEnum.eNone →
      (Start env inst w).2.1.runState = env.runnerStart.state ∧
        (Start env inst w).2.1.runError = env.runnerStart.error ∧
        (Start env inst w).1 = env.runnerStart.error) := by
  rcases hcr : CreateRuntimeSpec env inst (JoinPath cRuntimeDir inst.instanceID) w with ⟨e, w1⟩
  by_cases he : e = ErrorEnum.eNone <;>
    simp [Start, hcr, he]

/-- Witness for the amended C3: on the failing no-service attempt the run
state keeps its previous value `active` while the error is recorded. -/
theorem C3_amended_witness :
    (Start envOkActive instNoServiceActive wStale).2.1.runState =
      instNoServiceActive.runState ∧
    (Start envOkActive instNoServiceActive wStale).2.1.runError = ErrorEnum.eNotFound := by
  have h := (C3_amended_start_records_error_always_state_on_runner_path
    envOkActive instNoServiceActive wStale).1 (by decide)
  exact ⟨h.2.2, by rw [h.1]; decide⟩

/-- **C5**: with the directory clear succeeding, `Start` fails with
`NotFound` when no service is assigned, and with `InvalidArgument` when the
assigned service's image descriptor declares no entry command; in both
failure cases the only collaborator invocation is the directory clear — no
runtime descriptor is saved and the runner is never invoked. -/
theorem C5_start_notfound_invalidargument_no_persist_no_runner
    (env : Env) (inst : InstanceSt) (w : World) (svc : Service)
    (hclear : env.clearDirErr = ErrorEnum.eNone) :
    (inst.service = Option.none →
      (Start env inst w).1 = ErrorEnum.eNotFound ∧
      (Start env inst w).2.2.events =
        w.events ++ [Event.clearDir (JoinPath cRuntimeDir inst.instanceID)]) ∧
    (inst.service = Option.some svc → svc.imageSpec.1 = ErrorEnum.eNone →
      svc.serviceFSPath.1 = ErrorEnum.eNone → svc.imageSpec.2.config.cmd = [] →
      (Start env inst w).1 = ErrorEnum.eInvalidArgument ∧
      (Start env inst w).2.2.events =
        w.events ++ [Event.clearDir (JoinPath cRuntimeDir inst.instanceID)]) := by
  constructor
  · intro hs
    simp [Start, CreateRuntimeSpec, FSClearDir, AosErrorWrap, hclear, hs]
  · intro hs hi hf hc
    simp [Start, CreateRuntimeSpec, FSClearDir, AosErrorWrap, hclear, hs, hi, hf, hc]

/-- Witness for C5: the no-service instance gets `NotFound`, the empty-command
instance gets `InvalidArgument`, and in both runs the trace records only the
directory clear. -/
theorem C5_witness :
    ((Start envOkActive instNoServiceUnknown wStale).1 = ErrorEnum.eNotFound ∧
      (Start envOkActive instNoServiceUnknown wStale).2.2.events =
        wStale.events ++
          [Event.clearDir (JoinPath cRuntimeDir instNoServiceUnknown.instanceID)]) ∧
    ((Start envOkActive instEmptyCmd wStale).1 = ErrorEnum.eInvalidArgument ∧
      (Start envOkActive instEmptyCmd wStale).2.2.events =
        wStale.events ++ [Event.clearDir (JoinPath cRuntimeDir instEmptyCmd.instanceID)]) :=
  ⟨(C5_start_notfound_invalidargument_no_persist_no_runner envOkActive
      instNoServiceUnknown wStale svcEmptyCmd rfl).1 rfl,
   (C5_start_notfound_invalidargument_no_persist_no_runner envOkActive
      instEmptyCmd wStale svcEmptyCmd rfl).2 rfl rfl rfl rfl⟩

/-- **C7**: `Instance::Stop` always performs both steps — the runner stop
request and the runtime-directory removal — in that order regardless of
errors, and returns the first error encountered (`eNone` exactly when both
steps succeed). -/
theorem C7_stop_attempts_both_steps_returns_first_error
    (env : Env) (inst : InstanceSt) (w : World) :
    (Stop env inst w).2.events =
      w.events ++ [Event.runnerStop inst.instanceID,
        Event.removeDir (JoinPath cRuntimeDir inst.instanceID)] ∧
    (Stop env inst w).1 =
      (if env.runnerStopErr ≠ ErrorEnum.eNone then env.runnerStopErr
       else AosErrorWrap env.removeDirErr) ∧
    ((Stop env inst w).1 = ErrorEnum.eNone ↔
      env.runnerStopErr = ErrorEnum.eNone ∧ env.removeDirErr = ErrorEnum.eNone) := by
  by_cases h1 : env.runnerStopErr = ErrorEnum.eNone <;>
    by_cases h2 : env.removeDirErr = ErrorEnum.eNone <;>
      simp [Stop, FSRemoveDir, AosErrorWrap, h1, h2]

/-- **C9**: calling `Start` on an instance with no assigned service returns
`NotFound`, yet the runtime directory has already been cleared and recreated
empty: `FS::ClearDir` runs before the assigned-service check, so the
directory state changes even on this error path, whatever it held before. -/
theorem C9_start_clears_directory_before_service_check
    (env : Env) (inst : InstanceSt) (w : World)
    (hclear : env.clearDirErr = ErrorEnum.eNone) (hs : inst.service = Option.none) :
    (Start env inst w).1 = ErrorEnum.eNotFound ∧
    (Start env inst w).2.2.instanceDir = Option.some [] ∧
    (Start env inst w).2.2.events =
      w.events ++ [Event.clearDir (JoinPath cRuntimeDir inst.instanceID)] := by
  simp [Start, CreateRuntimeSpec, FSClearDir, AosErrorWrap, hclear, hs]

/-- Witness for C9: starting from a directory holding a stale file, the
failed `Start` leaves the directory recreated empty. -/
theorem C9_witness :
    (Start envOkActive instNoServiceActive wStale).1 = ErrorEnum.eNotFound ∧
    (Start envOkActive instNoServiceActive wStale).2.2.instanceDir = Option.some [] ∧
    (Start envOkActive instNoServiceActive wStale).2.2.events =
      wStale.events ++
        [Event.clearDir (JoinPath cRuntimeDir instNoServiceActive.instanceID)] :=
  C9_start_clears_directory_before_service_check envOkActive instNoServiceActive wStale
    rfl rfl

/-! ## Launcher reconciliation (include/aos/sm/launcher.hpp)

`Launcher::RunInstances` is declared at launcher.hpp lines 156-157; its
implementation file is not among the sources, so the reconciliation step is
modelled from the spec (§4.4): reject overlapping calls with `WrongState`;
diff current against desired — active instances absent from the desired set,
or whose backing service changed, or all of them when `forceRestart` is set,
are targeted for Stop; desired instances not active (or requiring restart)
are targeted for Start; the new active set is the survivors plus the started
instances, each recording the version of the service data it references. -/

/-- Modelled from the spec: desired instance entry (ident + referenced
service). -/
structure LInstanceInfo where
  ident : String
  serviceID : String
  deriving DecidableEq, Repr

/-- Modelled from the spec: service entry of the desired set (identifier +
version fingerprint). -/
structure LServiceInfo where
  serviceID : String
  version : Nat
  deriving DecidableEq, Repr

/-- Modelled from the spec: layer entry — refreshed read-through only, no
effect on the diff. -/
structure LLayerInfo where
  layerID : String
  deriving DecidableEq, Repr

/-- Modelled from the spec: an active instance as tracked by the launcher —
its ident, the service it was started against and that service's version
fingerprint at start time (`none` when the service did not resolve). -/
structure ActiveInstance where
  ident : String
  serviceID : String
  serviceVersion : Option Nat
  deriving DecidableEq, Repr

/-- Modelled from the spec: launcher state — the active instance table and
the `mLaunchInProgress` flag. -/
structure LauncherState where
  active : List ActiveInstance
  launchInProgress : Bool
  deriving DecidableEq, Repr

/-- The per-instance Stop and Start work submitted to the worker pool by one
reconciliation pass. -/
structure RunActions where
  stops : List ActiveInstance
  starts : List LInstanceInfo
  deriving DecidableEq, Repr

/-- Version fingerprint of a service in the desired service set. -/
def lookupVersion (services : List LServiceInfo) (sid : String) : Option Nat :=
  (services.find? (fun s => s.serviceID == sid)).map LServiceInfo.version

/-- Modelled from the spec (§4.4 step 4): an active instance is targeted for
Stop when `forceRestart` is set, when its ident is absent from the desired
set, or when its backing service's fingerprint changed. -/
def needsStop (services : List LServiceInfo) (desired : List LInstanceInfo)
    (forceRestart : Bool) (a : ActiveInstance) : Bool :=
  forceRestart || !(desired.any (fun d => d.ident == a.ident)) ||
    !(lookupVersion services a.serviceID == a.serviceVersion)

/-- Modelled from the spec: one `Launcher::RunInstances` call — reject
overlapping calls, compute the Stop targets, then the Start targets against
the surviving active set, and converge the active table to the desired set. -/
def RunInstances (services : List LServiceInfo) (layers : List LLayerInfo)
    (instances : List LInstanceInfo) (forceRestart : Bool) (st : LauncherState) :
    ErrorEnum × RunActions × LauncherState :=
  if st.launchInProgress then (ErrorEnum.eWrongState, ⟨[], []⟩, st)
  else
    let stops := st.active.filter (needsStop services instances forceRestart)
    let remaining := st.active.filter (fun a => !(needsStop services instances forceRestart a))
    let starts := instances.filter (fun d => !(remaining.any (fun a => a.ident == d.ident)))
    let newActive := remaining ++
      starts.map (fun d => ActiveInstance.mk d.ident d.serviceID
        (lookupVersion services d.serviceID))
    (ErrorEnum.eNone, ⟨stops, starts⟩, ⟨newActive, false⟩)

/-- **C8**: calling `RunInstances` twice in succession with identical
services, layers and instances and `forceRestart = false` submits no Start
and no Stop work on the second call, which itself succeeds. -/
theorem C8_second_identical_run_issues_no_actions
    (services : List LServiceInfo) (layers : List LLayerInfo)
    (instances : List LInstanceInfo) (st : LauncherState)
    (hprog : st.launchInProgress = false) :
    (RunInstances services layers instances false
      (RunInstances services layers instances false st).2.2).2.1.stops = [] ∧
    (RunInstances services layers instances false
      (RunInstances services layers instances false st).2.2).2.1.starts = [] ∧
    (RunInstances services layers instances false
      (RunInstances services layers instances false st).2.2).1 = ErrorEnum.eNone := by
  have h1 : (RunInstances services layers instances false st).2.2 =
      ⟨st.active.filter (fun a => !(needsStop services instances false a)) ++
        (instances.filter (fun d =>
          !((st.active.filter (fun a => !(needsStop services instances false a))).any
            (fun a => a.ident == d.ident)))).map
          (fun d => ActiveInstance.mk d.ident d.serviceID
            (lookupVersion services d.serviceID)), false⟩ := by
    simp [RunInstances, hprog]
  set remaining := st.active.filter (fun a => !(needsStop services instances false a)) with hrem
  set starts1 := instances.filter (fun d => !(remaining.any (fun a => a.ident == d.ident)))
    with hst1
  set newActive := remaining ++
    starts1.map (fun d => ActiveInstance.mk d.ident d.serviceID
      (lookupVersion services d.serviceID)) with hna
  have hall : ∀ a ∈ newActive, needsStop services instances false a = false := by
    intro a ha
    rw [hna, List.mem_append] at ha
    rcases ha with ha | ha
    · have := (List.mem_filter.mp ha).2
      simpa using this
    · obtain ⟨d, hd, rfl⟩ := List.mem_map.mp ha
      have hdinst : d ∈ instances := (List.mem_filter.mp hd).1
      have hany : instances.any (fun x => x.ident == d.ident) = true :=
        List.any_eq_true.mpr ⟨d, hdinst, by simp⟩
      simp [needsStop, hany]
  have hstops : newActive.filter (needsStop services instances false) = [] := by
    rw [List.filter_eq_nil_iff]
    intro a ha
    simp [hall a ha]
  have hrem2 : newActive.filter (fun a => !(needsStop services instances false a)) =
      newActive := by
    rw [List.filter_eq_self]
    intro a ha
    simp [hall a ha]
  have hstarts : instances.filter (fun d =>
      !(newActive.any (fun a => a.ident == d.ident))) = [] := by
    rw [List.filter_eq_nil_iff]
    intro d hd
    simp only [Bool.not_eq_true', Bool.not_eq_false]
    rw [List.any_eq_true]
    by_cases hr : remaining.any (fun a => a.ident == d.ident) = true
    · obtain ⟨a, ha, hpa⟩ := List.any_eq_true.mp hr
      exact ⟨a, List.mem_append.mpr (Or.inl ha), hpa⟩
    · have hdstart : d ∈ starts1 := by
        rw [hst1]
        exact List.mem_filter.mpr ⟨hd, by simp [hr]⟩
      refine ⟨ActiveInstance.mk d.ident d.serviceID (lookupVersion services d.serviceID),
        List.mem_append.mpr (Or.inr (List.mem_map.mpr ⟨d, hdstart, rfl⟩)), by simp⟩
  rw [h1]
  simp only [RunInstances, Bool.false_eq_true, if_false]
  refine ⟨hstops, ?_, trivial⟩
  rw [hrem2]
  exact hstarts

/-- Witness for C8: one service, one desired instance, starting from an idle
launcher — the second identical call issues no actions and succeeds. -/
theorem C8_witness :
    (RunInstances [LServiceInfo.mk "s1" 1] [] [LInstanceInfo.mk "i1" "s1"] false
      (RunInstances [LServiceInfo.mk "s1" 1] [] [LInstanceInfo.mk "i1" "s1"] false
        (LauncherState.mk [] false)).2.2).2.1.stops = [] ∧
    (RunInstances [LServiceInfo.mk "s1" 1] [] [LInstanceInfo.mk "i1" "s1"] false
      (RunInstances [LServiceInfo.mk "s1" 1] [] [LInstanceInfo.mk "i1" "s1"] false
        (LauncherState.mk [] false)).2.2).2.1.starts = [] ∧
    (RunInstances [LServiceInfo.mk "s1" 1] [] [LInstanceInfo.mk "i1" "s1"] false
      (RunInstances [LServiceInfo.mk "s1" 1] [] [LInstanceInfo.mk "i1" "s1"] false
        (LauncherState.mk [] false)).2.2).1 = ErrorEnum.eNone :=
  C8_second_identical_run_issues_no_actions [LServiceInfo.mk "s1" 1] []
    [LInstanceInfo.mk "i1" "s1"] (LauncherState.mk [] false) rfl

end Aos
